import Mathlib

/-!
Verification of the code_djinn command-assistant core: safety policies
(`codedjinn/policies/*.py`, `codedjinn/core/policy_engine.py`,
`codedjinn/core/policy.py`), the session store (`codedjinn/core/session.py`),
output trimming (`codedjinn/tools/output_trimmer.py`), the streaming executor
(`codedjinn/tools/exec_shell.py`) and the `run` CLI flow
(`codedjinn/ui/cli.py`).

Strings are modelled as `List Char`; Python `str.lower` is modelled by the
ASCII `Char.toLower` (every pattern in the source is ASCII), `str.strip` by
dropping Python whitespace from both ends, and the `in` substring test by
`containsSub`.
-/

namespace CodeDjinn

/-- Python default whitespace for `str.strip` and the regex class `\s`:
space, tab, newline, vertical tab, form feed, carriage return. -/
def isPySpace (c : Char) : Bool :=
  c = ' ' || c = '\t' || c = '\n' || c = '\x0b' || c = '\x0c' || c = '\r'

/-- Model of Python `str.lower` (ASCII fragment, which covers every pattern
appearing in the source). -/
def pyLower (s : List Char) : List Char :=
  s.map Char.toLower

/-- Model of Python `str.strip`: remove leading and trailing whitespace. -/
def pyStrip (s : List Char) : List Char :=
  (((s.dropWhile isPySpace).reverse).dropWhile isPySpace).reverse

/-- Model of the Python substring test `pat in s`. -/
def containsSub (pat s : List Char) : Bool :=
  s.tails.any (List.isPrefixOf pat)

/-- Model of `codedjinn/policies/base_policy.py`: the `PolicyDecision` enum. -/
inductive PolicyDecision
  | ALLOW
  | CONFIRM
  | DENY
deriving DecidableEq, Repr

/-- Model of `BalancedPolicy.BLOCKLIST` from `codedjinn/policies/balanced_policy.py`
(a Python set; modelled as a list - `assess` only asks whether any member
matches, so the iteration order is irrelevant). -/
def balancedBlocklist : List (List Char) :=
  ["rm -rf /", "rm -fr /",
   "mkfs", "fdisk",
   "dd if=/dev/", "dd of=/dev/",
   "shutdown", "reboot", "halt", "poweroff",
   "init 0", "init 6",
   "kill -9 1", "killall -9",
   "sudo rm", "chmod 777", "chmod -R 777",
   ":()\x7b :|:& \x7d;:"].map String.toList

/-- Model of `BalancedPolicy.assess`: lowercase and strip the command, DENY when any
blocklist member is a substring, otherwise ALLOW. -/
def BalancedPolicy.assess (command : List Char) : PolicyDecision :=
  if balancedBlocklist.any (fun b => containsSub b (pyStrip (pyLower command))) then .DENY
  else .ALLOW

/-- Model of `StrictPolicy.BLOCKLIST` from `codedjinn/policies/strict_policy.py`. -/
def strictBlocklist : List (List Char) :=
  ["rm -rf /", "rm -fr /",
   "mkfs", "fdisk",
   "dd if=/dev/", "dd of=/dev/",
   "shutdown", "reboot", "halt", "poweroff",
   "kill -9 1", "killall -9",
   "sudo rm", "chmod 777", "chmod -R 777",
   ":()\x7b :|:& \x7d;:",
   "curl | sh", "wget | sh", "curl | bash", "wget | bash",
   "eval", "python -c", "perl -e",
   "> /dev/", "< /dev/",
   "chown -r",
   "chmod +x /tmp"].map String.toList

/-- Model of `StrictPolicy.REQUIRE_CONFIRM` from `codedjinn/policies/strict_policy.py`. -/
def strictRequireConfirm : List (List Char) :=
  ["sudo", "rm -r", "rm -rf"].map String.toList

/-- Model of `StrictPolicy.assess`: blocklist first (DENY), then confirmation
patterns (CONFIRM), otherwise ALLOW. -/
def StrictPolicy.assess (command : List Char) : PolicyDecision :=
  if strictBlocklist.any (fun b => containsSub b (pyStrip (pyLower command))) then .DENY
  else if strictRequireConfirm.any (fun p => containsSub p (pyStrip (pyLower command))) then
    .CONFIRM
  else .ALLOW

/-- Model of `LoosePolicy.BLOCKLIST` from `codedjinn/policies/loose_policy.py`. -/
def looseBlocklist : List (List Char) :=
  ["rm -rf /", "rm -fr /",
   "mkfs",
   "dd if=/dev/", "dd of=/dev/",
   ":()\x7b :|:& \x7d;:"].map String.toList

/-- Model of `LoosePolicy.assess`: DENY on a blocklist match, otherwise ALLOW. -/
def LoosePolicy.assess (command : List Char) : PolicyDecision :=
  if looseBlocklist.any (fun b => containsSub b (pyStrip (pyLower command))) then .DENY
  else .ALLOW

/-- The three policy classes registered in `PolicyEngine.POLICIES`
(`codedjinn/core/policy_engine.py`). -/
inductive PolicyName
  | loose
  | balanced
  | strict
deriving DecidableEq, Repr

/-- Dispatch of `self.policy.assess(command)` to the concrete policy class. -/
def PolicyName.assess : PolicyName → List Char → PolicyDecision
  | .loose => LoosePolicy.assess
  | .balanced => BalancedPolicy.assess
  | .strict => StrictPolicy.assess

/-- Keys of the `PolicyEngine.POLICIES` registry, in declaration order. -/
def policiesKeys : List (List Char) :=
  ["loose", "balanced", "strict"].map String.toList

/-- Model of `self.POLICIES.get(name.lower())`: registry lookup on the lowercased
name. -/
def lookupPolicy (nameLower : List Char) : Option PolicyName :=
  if nameLower = "loose".toList then some .loose
  else if nameLower = "balanced".toList then some .balanced
  else if nameLower = "strict".toList then some .strict
  else none

/-- The `', '.join(self.POLICIES.keys())` string used in the error message. -/
def availablePoliciesStr : List Char :=
  "loose, balanced, strict".toList

/-- The `ValueError` message raised by `PolicyEngine.load_policy` for an
unknown policy name. -/
def unknownPolicyMsg (name : List Char) : List Char :=
  "Unknown policy: ".toList ++ name ++ ". Available policies: ".toList ++
    availablePoliciesStr

/-- Model of `PolicyEngine.load_policy`: look up the lowercased name; raise
`ValueError` (modelled as `Except.error`) when unknown. -/
def PolicyEngine.load_policy (name : List Char) : Except (List Char) PolicyName :=
  match lookupPolicy (pyLower name) with
  | some p => .ok p
  | none => .error (unknownPolicyMsg name)

/-- Model of `PolicyEngine` state: the loaded policy and the stored policy name
(`self.policy`, `self.policy_name`). -/
structure PolicyEngine where
  policy : PolicyName
  policy_name : List Char
deriving DecidableEq, Repr

/-- Model of `PolicyEngine.__init__`: constructing an engine loads the policy by name;
an unknown name raises `ValueError` (modelled as `Except.error`). -/
def PolicyEngine.construct (policy_name : List Char) : Except (List Char) PolicyEngine :=
  match PolicyEngine.load_policy policy_name with
  | .ok p => .ok ⟨p, policy_name⟩
  | .error e => .error e

/-- Model of `PolicyEngine.assess_command`: empty or whitespace-only commands are
denied before the policy is consulted. -/
def PolicyEngine.assess_command (e : PolicyEngine) (command : List Char) : PolicyDecision :=
  if command.isEmpty || (pyStrip command).isEmpty then .DENY
  else e.policy.assess command

/-- Model of `PolicyEngine.switch_policy`: on success replace the policy and stored
name and return `True`; on `ValueError` leave the engine unchanged and
return `False`. -/
def PolicyEngine.switch_policy (e : PolicyEngine) (policy_name : List Char) :
    PolicyEngine × Bool :=
  match PolicyEngine.load_policy policy_name with
  | .ok p => (⟨p, policy_name⟩, true)
  | .error _ => (e, false)

/-! ### Substring and strip lemmas -/

theorem isPrefixOf_iff {l₁ l₂ : List Char} : List.isPrefixOf l₁ l₂ = true ↔ l₁ <+: l₂ := by
  induction l₁ generalizing l₂ with
  | nil => simp [List.isPrefixOf]
  | cons a as ih =>
    cases l₂ with
    | nil => simp [List.isPrefixOf]
    | cons b bs => simp [List.isPrefixOf, List.cons_prefix_cons, ih]

theorem containsSub_iff (p s : List Char) : containsSub p s = true ↔ p <:+: s := by
  unfold containsSub
  rw [List.any_eq_true]
  constructor
  · rintro ⟨t, ht, hp⟩
    rw [List.mem_tails] at ht
    rw [isPrefixOf_iff] at hp
    exact List.infix_iff_prefix_suffix.mpr ⟨t, hp, ht⟩
  · intro h
    obtain ⟨t, hp, ht⟩ := List.infix_iff_prefix_suffix.mp h
    exact ⟨t, (List.mem_tails _ _).mpr ht, isPrefixOf_iff.mpr hp⟩

theorem pyStrip_infixOf (s : List Char) : pyStrip s <:+: s := by
  unfold pyStrip
  have h1 : (s.dropWhile isPySpace) <:+ s := List.dropWhile_suffix _
  have h2 : ((s.dropWhile isPySpace).reverse.dropWhile isPySpace) <:+
      (s.dropWhile isPySpace).reverse := List.dropWhile_suffix _
  have h3 : ((s.dropWhile isPySpace).reverse.dropWhile isPySpace).reverse <+:
      (s.dropWhile isPySpace) := by
    rw [← List.reverse_suffix]
    simpa using h2
  exact h3.isInfix.trans h1.isInfix

theorem containsSub_of_pyStrip {p s : List Char}
    (h : containsSub p (pyStrip s) = true) : containsSub p s = true := by
  rw [containsSub_iff] at h ⊢
  exact h.trans (pyStrip_infixOf s)

theorem cons_infix_dropWhile {ph : Char} {pt s : List Char}
    (hph : isPySpace ph = false) (h : (ph :: pt) <:+: s) :
    (ph :: pt) <:+: s.dropWhile isPySpace := by
  induction s with
  | nil => simpa using List.infix_nil.mp h
  | cons c rest ih =>
    rw [List.infix_cons_iff] at h
    by_cases hc : isPySpace c = true
    · rw [List.dropWhile_cons, if_pos hc]
      cases h with
      | inl hpre =>
        obtain ⟨t, ht⟩ := hpre
        have hcph : ph = c := by
          have := congrArg List.head? ht
          simpa using this
        rw [hcph] at hph
        rw [hph] at hc
        exact absurd hc (by simp)
      | inr hinf => exact ih hinf
    · rw [List.dropWhile_cons, if_neg hc]
      cases h with
      | inl hpre => exact hpre.isInfix
      | inr hinf => exact hinf.trans (List.suffix_cons c rest).isInfix

theorem infix_pyStrip {p s : List Char}
    (hhead : p.head?.all (fun c => !isPySpace c) = true)
    (hlast : p.getLast?.all (fun c => !isPySpace c) = true)
    (h : p <:+: s) : p <:+: pyStrip s := by
  cases p with
  | nil => exact List.nil_infix
  | cons ph pt =>
    have hph : isPySpace ph = false := by simpa using hhead
    have h1 : (ph :: pt) <:+: s.dropWhile isPySpace := cons_infix_dropWhile hph h
    have h2 : (ph :: pt).reverse <:+: (s.dropWhile isPySpace).reverse :=
      List.reverse_infix.mpr h1
    obtain ⟨q, qs, hq⟩ : ∃ q qs, (ph :: pt).reverse = q :: qs := by
      cases hrev : (ph :: pt).reverse with
      | nil => exact absurd (congrArg List.length hrev) (by simp)
      | cons q qs => exact ⟨q, qs, rfl⟩
    have hqlast : isPySpace q = false := by
      have hhq : (ph :: pt).reverse.head? = some q := by rw [hq]; rfl
      rw [List.head?_reverse] at hhq
      rw [hhq] at hlast
      simpa using hlast
    rw [hq] at h2
    have h3 : (q :: qs) <:+: ((s.dropWhile isPySpace).reverse).dropWhile isPySpace :=
      cons_infix_dropWhile hqlast h2
    have h4 := List.reverse_infix.mpr h3
    have h5 : (q :: qs).reverse = ph :: pt := by
      rw [← hq, List.reverse_reverse]
    rw [h5] at h4
    exact h4

theorem containsSub_pyStrip_of_edges {p s : List Char}
    (hhead : p.head?.all (fun c => !isPySpace c) = true)
    (hlast : p.getLast?.all (fun c => !isPySpace c) = true)
    (h : containsSub p s = true) : containsSub p (pyStrip s) = true := by
  rw [containsSub_iff] at h ⊢
  exact infix_pyStrip hhead hlast h

/-- Predicate used below: every pattern in the list starts and ends with a
non-whitespace character (true for every blocklist in the source). -/
def edgesNonSpace (pats : List (List Char)) : Bool :=
  pats.all (fun p =>
    p.head?.all (fun c => !isPySpace c) && p.getLast?.all (fun c => !isPySpace c))

theorem any_containsSub_pyStrip_of_any {pats : List (List Char)} {s : List Char}
    (hedges : edgesNonSpace pats = true)
    (h : pats.any (fun b => containsSub b s) = true) :
    pats.any (fun b => containsSub b (pyStrip s)) = true := by
  rw [List.any_eq_true] at h ⊢
  obtain ⟨b, hb, hcs⟩ := h
  have he := List.all_eq_true.mp hedges b hb
  rw [Bool.and_eq_true] at he
  exact ⟨b, hb, containsSub_pyStrip_of_edges he.1 he.2 hcs⟩

theorem any_containsSub_of_any_pyStrip {pats : List (List Char)} {s : List Char}
    (h : pats.any (fun b => containsSub b (pyStrip s)) = true) :
    pats.any (fun b => containsSub b s) = true := by
  rw [List.any_eq_true] at h ⊢
  obtain ⟨b, hb, hcs⟩ := h
  exact ⟨b, hb, containsSub_of_pyStrip hcs⟩

theorem strictBlocklist_edges : edgesNonSpace strictBlocklist = true := by decide

theorem strictRequireConfirm_edges : edgesNonSpace strictRequireConfirm = true := by decide

/-! ### Claims about the policy layer -/

/-- Claim C1, counterexample: the empty command contains no blocklisted
substring, yet `PolicyEngine.assess_command` under the balanced policy
returns DENY, not ALLOW (`assess_command` denies empty or whitespace-only
input before the policy is consulted). -/
theorem c1_counterexample :
    balancedBlocklist.all (fun b => !containsSub b (pyLower [])) = true ∧
    PolicyEngine.assess_command ⟨PolicyName.balanced, "balanced".toList⟩ [] =
      PolicyDecision.DENY ∧
    PolicyDecision.DENY ≠ PolicyDecision.ALLOW := by
  refine ⟨by decide, by decide, by decide⟩

/-- Claim C1 (amended): under the balanced policy, every command that has at
least one non-whitespace character and contains no blocklisted substring
(case-insensitively) is assessed ALLOW by `PolicyEngine.assess_command`,
even when it contains pipes, redirects, or chaining. -/
theorem c1_balanced_default_allow (e : PolicyEngine) (command : List Char)
    (hpol : e.policy = PolicyName.balanced)
    (hne : (pyStrip command).isEmpty = false)
    (hsafe : balancedBlocklist.all (fun b => !containsSub b (pyLower command)) = true) :
    e.assess_command command = PolicyDecision.ALLOW := by
  have hcmd : command.isEmpty = false := by
    cases command with
    | nil => simp [pyStrip] at hne
    | cons c rest => rfl
  unfold PolicyEngine.assess_command
  rw [hcmd, hne]
  simp only [Bool.or_self, Bool.false_eq_true, if_false]
  rw [hpol]
  show BalancedPolicy.assess command = PolicyDecision.ALLOW
  unfold BalancedPolicy.assess
  have hany : balancedBlocklist.any
      (fun b => containsSub b (pyStrip (pyLower command))) = false := by
    rw [List.any_eq_false]
    intro b hb hcontra
    have hs := List.all_eq_true.mp hsafe b hb
    rw [containsSub_of_pyStrip hcontra] at hs
    exact absurd hs (by simp)
  rw [hany]
  rfl

/-- Claim C1 witness: `assess("ls -la | grep foo") == ALLOW` under the
balanced policy, via `c1_balanced_default_allow`. -/
theorem c1_witness :
    (pyStrip ("ls -la | grep foo".toList)).isEmpty = false ∧
    balancedBlocklist.all
      (fun b => !containsSub b (pyLower ("ls -la | grep foo".toList))) = true ∧
    PolicyEngine.assess_command ⟨PolicyName.balanced, "balanced".toList⟩
      ("ls -la | grep foo".toList) = PolicyDecision.ALLOW :=
  ⟨by decide, by decide,
    c1_balanced_default_allow ⟨PolicyName.balanced, "balanced".toList⟩
      ("ls -la | grep foo".toList) rfl (by decide) (by decide)⟩

/-- Claim C2: under the strict policy the evaluation order is fixed for every
non-empty command: a case-insensitive blocklist substring match forces DENY
(even when a confirm pattern also matches); otherwise a confirm-pattern
match forces CONFIRM; otherwise the result is ALLOW. -/
theorem c2_strict_precedence (command : List Char) (hne : command ≠ []) :
    (strictBlocklist.any (fun b => containsSub b (pyLower command)) = true →
      StrictPolicy.assess command = PolicyDecision.DENY) ∧
    (strictBlocklist.any (fun b => containsSub b (pyLower command)) = false →
      strictRequireConfirm.any (fun p => containsSub p (pyLower command)) = true →
      StrictPolicy.assess command = PolicyDecision.CONFIRM) ∧
    (strictBlocklist.any (fun b => containsSub b (pyLower command)) = false →
      strictRequireConfirm.any (fun p => containsSub p (pyLower command)) = false →
      StrictPolicy.assess command = PolicyDecision.ALLOW) := by
  have hblockOfLower := fun h =>
    any_containsSub_pyStrip_of_any (s := pyLower command) strictBlocklist_edges h
  have hconfOfLower := fun h =>
    any_containsSub_pyStrip_of_any (s := pyLower command) strictRequireConfirm_edges h
  have hblockNeg : strictBlocklist.any (fun b => containsSub b (pyLower command)) = false →
      strictBlocklist.any (fun b => containsSub b (pyStrip (pyLower command))) = false := by
    intro h
    cases hs : strictBlocklist.any (fun b => containsSub b (pyStrip (pyLower command))) with
    | false => rfl
    | true => rw [any_containsSub_of_any_pyStrip hs] at h; exact absurd h (by simp)
  have hconfNeg : strictRequireConfirm.any (fun p => containsSub p (pyLower command)) = false →
      strictRequireConfirm.any (fun p => containsSub p (pyStrip (pyLower command))) = false := by
    intro h
    cases hs : strictRequireConfirm.any (fun p => containsSub p (pyStrip (pyLower command))) with
    | false => rfl
    | true => rw [any_containsSub_of_any_pyStrip hs] at h; exact absurd h (by simp)
  refine ⟨?_, ?_, ?_⟩
  · intro h
    unfold StrictPolicy.assess
    rw [hblockOfLower h]
    rfl
  · intro hb hc
    unfold StrictPolicy.assess
    rw [hblockNeg hb, hconfOfLower hc]
    rfl
  · intro hb hc
    unfold StrictPolicy.assess
    rw [hblockNeg hb, hconfNeg hc]
    rfl

/-- Claim C2 witness: `"sudo rm -rf /data"` matches both a blocklist pattern
(`"sudo rm"`) and confirm patterns (`"sudo"`, `"rm -rf"`) and is DENIED,
while `"sudo apt upgrade"` matches only a confirm pattern and yields
CONFIRM, both via `c2_strict_precedence`. -/
theorem c2_witness :
    (strictBlocklist.any
      (fun b => containsSub b (pyLower ("sudo rm -rf /data".toList))) = true ∧
     strictRequireConfirm.any
      (fun p => containsSub p (pyLower ("sudo rm -rf /data".toList))) = true ∧
     StrictPolicy.assess ("sudo rm -rf /data".toList) = PolicyDecision.DENY) ∧
    (strictBlocklist.any
      (fun b => containsSub b (pyLower ("sudo apt upgrade".toList))) = false ∧
     StrictPolicy.assess ("sudo apt upgrade".toList) = PolicyDecision.CONFIRM) :=
  ⟨⟨by decide, by decide,
    (c2_strict_precedence ("sudo rm -rf /data".toList) (by decide)).1 (by decide)⟩,
   ⟨by decide,
    (c2_strict_precedence ("sudo apt upgrade".toList) (by decide)).2.1
      (by decide) (by decide)⟩⟩

/-- Claim C5: for every engine (hence every configured policy), an empty or
whitespace-only command is assessed DENY by `PolicyEngine.assess_command`. -/
theorem c5_empty_command_deny (e : PolicyEngine) (command : List Char)
    (h : (pyStrip command).isEmpty = true) :
    e.assess_command command = PolicyDecision.DENY := by
  unfold PolicyEngine.assess_command
  rw [h]
  simp

/-- Claim C5 witness: `assess("") == DENY` and `assess("   ") == DENY`
(shown under the balanced and strict policies), via
`c5_empty_command_deny`. -/
theorem c5_witness :
    PolicyEngine.assess_command ⟨PolicyName.balanced, "balanced".toList⟩ [] =
      PolicyDecision.DENY ∧
    PolicyEngine.assess_command ⟨PolicyName.strict, "strict".toList⟩
      ("   ".toList) = PolicyDecision.DENY :=
  ⟨c5_empty_command_deny ⟨PolicyName.balanced, "balanced".toList⟩ [] (by decide),
   c5_empty_command_deny ⟨PolicyName.strict, "strict".toList⟩ ("   ".toList)
     (by decide)⟩

/-- Claim C10: for every engine and every name that is not a known policy
(case-insensitively), `switch_policy` returns `False` and leaves the engine
(both the active policy and the stored `policy_name`) unchanged, while
construction with that name raises a `ValueError` whose message lists the
valid names. -/
theorem c10_switch_policy_unknown (e : PolicyEngine) (name : List Char)
    (h : pyLower name ∉ policiesKeys) :
    e.switch_policy name = (e, false) ∧
    PolicyEngine.construct name = Except.error (unknownPolicyMsg name) ∧
    containsSub availablePoliciesStr (unknownPolicyMsg name) = true := by
  have hmem : ¬(pyLower name = "loose".toList) ∧ ¬(pyLower name = "balanced".toList) ∧
      ¬(pyLower name = "strict".toList) := by
    simpa [policiesKeys, not_or] using h
  have hlookup : lookupPolicy (pyLower name) = none := by
    unfold lookupPolicy
    rw [if_neg hmem.1, if_neg hmem.2.1, if_neg hmem.2.2]
  refine ⟨?_, ?_, ?_⟩
  · unfold PolicyEngine.switch_policy PolicyEngine.load_policy
    rw [hlookup]
  · unfold PolicyEngine.construct PolicyEngine.load_policy
    rw [hlookup]
  · rw [containsSub_iff]
    unfold unknownPolicyMsg
    have hs : availablePoliciesStr <:+
        ("Unknown policy: ".toList ++ (name ++ (". Available policies: ".toList ++
          availablePoliciesStr))) :=
      ((List.suffix_append _ _).trans (List.suffix_append _ _)).trans
        (List.suffix_append _ _)
    exact (by simpa using hs : availablePoliciesStr <:+
      ("Unknown policy: ".toList ++ name ++ ". Available policies: ".toList ++
        availablePoliciesStr)).isInfix

/-- Claim C10 witness: switching to the unknown name `"paranoid"` fails and
leaves the engine unchanged, and construction with it yields the error
message listing the valid names, via `c10_switch_policy_unknown`. -/
theorem c10_witness :
    PolicyEngine.switch_policy ⟨PolicyName.balanced, "balanced".toList⟩
      ("paranoid".toList) = (⟨PolicyName.balanced, "balanced".toList⟩, false) ∧
    PolicyEngine.construct ("paranoid".toList) =
      Except.error (unknownPolicyMsg ("paranoid".toList)) ∧
    containsSub availablePoliciesStr (unknownPolicyMsg ("paranoid".toList)) = true :=
  c10_switch_policy_unknown ⟨PolicyName.balanced, "balanced".toList⟩
    ("paranoid".toList) (by decide)

/-! ### Session store (`codedjinn/core/session.py`)

Session files hold JSON documents; the file system is modelled as a map
from session name to the parsed JSON value of `{name}.json` and
`{name}_history.json` (string escaping of the byte-level encoding is not
modelled: a file holds the JSON document written to it, or `none` when the
file does not exist). -/

/-- JSON values as produced by `json.dump(asdict(...))`. -/
inductive Json
  | str (s : List Char)
  | int (n : Int)
  | obj (fields : List (List Char × Json))
  | arr (items : List Json)

/-- Model of `json.load` result lookup: field of a JSON object. -/
def Json.getField (j : Json) (k : List Char) : Option Json :=
  match j with
  | .obj fields => fields.lookup k
  | _ => none

/-- The `CommandHistory` dataclass (current-command record), fields in
declaration order. -/
structure CommandHistory where
  command : List Char
  output : List Char
  timestamp : List Char
  exit_code : Int
deriving DecidableEq, Repr

/-- Model of `asdict(CommandHistory(...))` as a JSON object, preserving the
dataclass field order. -/
def CommandHistory.asdict (h : CommandHistory) : Json :=
  .obj [("command".toList, .str h.command),
        ("output".toList, .str h.output),
        ("timestamp".toList, .str h.timestamp),
        ("exit_code".toList, .int h.exit_code)]

/-- Model of `CommandHistory(**data)`: rebuild the record from a parsed JSON object;
`none` models the `KeyError`/`TypeError` branch for corrupted data. -/
def commandHistoryFromJson (j : Json) : Option CommandHistory :=
  match j.getField "command".toList, j.getField "output".toList,
      j.getField "timestamp".toList, j.getField "exit_code".toList with
  | some (.str c), some (.str o), some (.str t), some (.int n) => some ⟨c, o, t, n⟩
  | _, _, _, _ => none

/-- The `CommandExchange` dataclass (history entry), fields in declaration
order (`command, output, exit_code, timestamp`). -/
structure CommandExchange where
  command : List Char
  output : List Char
  exit_code : Int
  timestamp : List Char
deriving DecidableEq, Repr

/-- Model of `asdict(CommandExchange(...))` as a JSON object. -/
def CommandExchange.asdict (e : CommandExchange) : Json :=
  .obj [("command".toList, .str e.command),
        ("output".toList, .str e.output),
        ("exit_code".toList, .int e.exit_code),
        ("timestamp".toList, .str e.timestamp)]

/-- Model of `CommandExchange(**item)` from a parsed JSON object. -/
def commandExchangeFromJson (j : Json) : Option CommandExchange :=
  match j.getField "command".toList, j.getField "output".toList,
      j.getField "exit_code".toList, j.getField "timestamp".toList with
  | some (.str c), some (.str o), some (.int n), some (.str t) => some ⟨c, o, n, t⟩
  | _, _, _, _ => none

/-- Model of `[CommandExchange(**item) for item in data]`: an exception on any item
aborts the whole comprehension (modelled by `none`). -/
def exchangesFromJsonList : List Json → Option (List CommandExchange)
  | [] => some []
  | j :: rest =>
    match commandExchangeFromJson j, exchangesFromJsonList rest with
    | some e, some es => some (e :: es)
    | _, _ => none

/-- Model of `json.dump([asdict(ex) for ex in exchanges])`. -/
def exchangesToJson (es : List CommandExchange) : Json :=
  .arr (es.map CommandExchange.asdict)

/-- Model of `Session.MAX_HISTORY_EXCHANGES`. -/
def MAX_HISTORY_EXCHANGES : Nat := 5

/-- The on-disk session state: per session name, the parsed contents of
`{name}.json` and `{name}_history.json` (`none` = file absent). -/
structure Sessions where
  files : List Char → Option Json
  historyFiles : List Char → Option Json

/-- A fresh configuration directory: no session files exist. -/
def emptySessions : Sessions :=
  ⟨fun _ => none, fun _ => none⟩

/-- Model of `Session.load_previous`: read and parse the session file; a missing or
corrupted file yields `None`. -/
def Session.load_previous (st : Sessions) (session_name : List Char) :
    Option CommandHistory :=
  match st.files session_name with
  | none => none
  | some j => commandHistoryFromJson j

/-- Model of `Session.load_history`: read and parse the history file; a missing or
corrupted file yields the empty list. -/
def Session.load_history (st : Sessions) (session_name : List Char) :
    List CommandExchange :=
  match st.historyFiles session_name with
  | none => []
  | some (.arr items) => (exchangesFromJsonList items).getD []
  | some _ => []

/-- The trimming step of `add_to_history`: `exchanges = exchanges[-N:]` when
the appended list exceeds `MAX_HISTORY_EXCHANGES` entries. -/
def trimHistory (appended : List CommandExchange) : List CommandExchange :=
  if MAX_HISTORY_EXCHANGES < appended.length then
    appended.drop (appended.length - MAX_HISTORY_EXCHANGES)
  else appended

/-- Model of `Session.add_to_history`: load the history, append the new exchange,
trim to the last `MAX_HISTORY_EXCHANGES`, and write the history file back. -/
def Session.add_to_history (st : Sessions) (session_name : List Char)
    (command output : List Char) (exit_code : Int) (timestamp : List Char) :
    Sessions :=
  { st with
    historyFiles := fun n =>
      if n = session_name then
        some (exchangesToJson (trimHistory
          (Session.load_history st session_name ++ [⟨command, output, exit_code, timestamp⟩])))
      else st.historyFiles n }

/-- Model of `Session.save`: overwrite the current-command file with the new record,
then append to the bounded history. -/
def Session.save (st : Sessions) (session_name : List Char)
    (command output : List Char) (exit_code : Int) (timestamp : List Char) :
    Sessions :=
  let st2 : Sessions :=
    { st with
      files := fun n =>
        if n = session_name then
          some (CommandHistory.asdict ⟨command, output, timestamp, exit_code⟩)
        else st.files n }
  Session.add_to_history st2 session_name command output exit_code timestamp

/-- A sequence of `save` calls on one session, in order. -/
def saveAll (st : Sessions) (session_name : List Char)
    (items : List CommandExchange) : Sessions :=
  items.foldl
    (fun s it => Session.save s session_name it.command it.output it.exit_code it.timestamp)
    st

/-! ### Session store lemmas and claims C7, C8 -/

theorem commandHistoryFromJson_asdict (h : CommandHistory) :
    commandHistoryFromJson h.asdict = some h := rfl

theorem commandExchangeFromJson_asdict (e : CommandExchange) :
    commandExchangeFromJson e.asdict = some e := rfl

theorem exchangesFromJsonList_map (es : List CommandExchange) :
    exchangesFromJsonList (es.map CommandExchange.asdict) = some es := by
  induction es with
  | nil => rfl
  | cons e rest ih =>
    show exchangesFromJsonList (e.asdict :: rest.map CommandExchange.asdict) = _
    unfold exchangesFromJsonList
    rw [commandExchangeFromJson_asdict, ih]

/-- One `save` call as a pure operation on the history list. -/
def histStep (h : List CommandExchange) (e : CommandExchange) : List CommandExchange :=
  trimHistory (h ++ [e])

theorem load_history_add_to_history (st : Sessions) (name cmd out : List Char)
    (code : Int) (ts : List Char) :
    Session.load_history (Session.add_to_history st name cmd out code ts) name =
      trimHistory (Session.load_history st name ++ [⟨cmd, out, code, ts⟩]) := by
  have hfile : (Session.add_to_history st name cmd out code ts).historyFiles name =
      some (exchangesToJson (trimHistory
        (Session.load_history st name ++ [⟨cmd, out, code, ts⟩]))) := by
    unfold Session.add_to_history
    simp
  unfold Session.load_history
  rw [hfile]
  show (exchangesFromJsonList ((trimHistory
    (Session.load_history st name ++ [⟨cmd, out, code, ts⟩])).map
      CommandExchange.asdict)).getD [] = _
  rw [exchangesFromJsonList_map]
  rfl

theorem load_history_save (st : Sessions) (name cmd out : List Char)
    (code : Int) (ts : List Char) :
    Session.load_history (Session.save st name cmd out code ts) name =
      histStep (Session.load_history st name) ⟨cmd, out, code, ts⟩ := by
  unfold Session.save
  rw [load_history_add_to_history]
  rfl

theorem saveAll_load_history (items : List CommandExchange) :
    ∀ (st : Sessions) (name : List Char),
      Session.load_history (saveAll st name items) name =
        items.foldl histStep (Session.load_history st name) := by
  induction items with
  | nil =>
    intro st name
    rfl
  | cons e rest ih =>
    intro st name
    show Session.load_history
      (saveAll (Session.save st name e.command e.output e.exit_code e.timestamp)
        name rest) name = _
    rw [ih, List.foldl_cons, load_history_save]

theorem histStep_eq {h : List CommandExchange} (e : CommandExchange)
    (hh : h.length ≤ 5) :
    histStep h e = (h ++ [e]).drop (h.length + 1 - 5) := by
  unfold histStep trimHistory MAX_HISTORY_EXCHANGES
  by_cases hc : 5 < (h ++ [e]).length
  · rw [if_pos hc]
    congr 1
    simp
  · rw [if_neg hc]
    simp at hc
    have h0 : h.length + 1 - 5 = 0 := by omega
    rw [h0, List.drop_zero]

theorem histFoldl_eq (items : List CommandExchange) :
    ∀ h : List CommandExchange, h.length ≤ 5 →
      items.foldl histStep h = (h ++ items).drop (h.length + items.length - 5) := by
  induction items with
  | nil =>
    intro h hh
    simp only [List.foldl_nil, List.append_nil, List.length_nil, Nat.add_zero]
    have h0 : h.length - 5 = 0 := by omega
    rw [h0, List.drop_zero]
  | cons e rest ih =>
    intro h hh
    rw [List.foldl_cons]
    have hle : (histStep h e).length ≤ 5 := by
      rw [histStep_eq e hh, List.length_drop]
      simp only [List.length_append, List.length_cons, List.length_nil]
      omega
    rw [ih (histStep h e) hle, histStep_eq e hh, List.length_drop]
    rw [← List.drop_append_of_le_length
      (by simp only [List.length_append, List.length_cons, List.length_nil]; omega)]
    rw [List.drop_drop]
    have harr : (h ++ [e]) ++ rest = h ++ e :: rest := by simp
    rw [harr]
    congr 1
    simp only [List.length_append, List.length_cons, List.length_nil]
    omega

/-- Claim C7: for every sequence of `save` calls on one fresh session, the
persisted history holds at most `MAX_HISTORY_EXCHANGES = 5` exchanges, and
after saving more than 5 commands, `load_history` returns exactly the 5
most recent in oldest-first order (the oldest entries dropped). -/
theorem c7_history_bound (items : List CommandExchange) (session_name : List Char) :
    (Session.load_history (saveAll emptySessions session_name items)
      session_name).length ≤ 5 ∧
    (5 < items.length →
      Session.load_history (saveAll emptySessions session_name items) session_name =
        items.drop (items.length - 5)) := by
  have hload : Session.load_history (saveAll emptySessions session_name items)
      session_name = items.foldl histStep [] :=
    saveAll_load_history items emptySessions session_name
  constructor
  · rw [hload, histFoldl_eq items [] (by simp), List.length_drop]
    simp only [List.nil_append, List.length_nil, Nat.zero_add]
    omega
  · intro h5
    rw [hload, histFoldl_eq items [] (by simp)]
    simp

/-- Claim C7 witness: saving six commands into a fresh session leaves
exactly the five most recent, oldest-first, via `c7_history_bound`. -/
theorem c7_witness :
    (5 < (List.range 6 |>.map
      (fun i => CommandExchange.mk [Char.ofNat (49 + i)] [] 0 [])).length) ∧
    Session.load_history
        (saveAll emptySessions ("default".toList)
          (List.range 6 |>.map
            (fun i => CommandExchange.mk [Char.ofNat (49 + i)] [] 0 [])))
        ("default".toList) =
      (List.range 6 |>.map
        (fun i => CommandExchange.mk [Char.ofNat (49 + i)] [] 0 [])).drop 1 :=
  ⟨by decide,
    (c7_history_bound
      (List.range 6 |>.map (fun i => CommandExchange.mk [Char.ofNat (49 + i)] [] 0 []))
      ("default".toList)).2 (by decide)⟩

/-- Claim C8: saving a `(command, output, exit_code)` triple to any session
and loading the current record back returns a record whose `command`,
`output` and `exit_code` fields equal the saved values. -/
theorem c8_session_round_trip (st : Sessions) (session_name command output : List Char)
    (exit_code : Int) (timestamp : List Char) :
    ∃ rec : CommandHistory,
      Session.load_previous
          (Session.save st session_name command output exit_code timestamp)
          session_name = some rec ∧
      rec.command = command ∧ rec.output = output ∧ rec.exit_code = exit_code := by
  refine ⟨⟨command, output, timestamp, exit_code⟩, ?_, rfl, rfl, rfl⟩
  unfold Session.save Session.add_to_history Session.load_previous
  simp [commandHistoryFromJson_asdict]

/-! ### Output trimming (`codedjinn/tools/output_trimmer.py`) -/

/-- Python `output.isspace()`: non-empty and all whitespace. -/
def isspacePy (s : List Char) : Bool :=
  !s.isEmpty && s.all isPySpace

/-- Python `output.split('\n')`. -/
def splitNl : List Char → List (List Char)
  | [] => [[]]
  | c :: rest =>
    match splitNl rest with
    | [] => [[]]
    | h :: t => if c = '\n' then [] :: h :: t else (c :: h) :: t

/-- Decimal rendering of a natural number, for the omitted-count messages. -/
def natToChars (n : Nat) : List Char :=
  (Nat.repr n).toList

/-- Model of `trim_output` from `codedjinn/tools/output_trimmer.py`. The two
`{...}` f-string interpolations are integers that are positive whenever the
branch building them is reached, so the `Nat` subtractions used here agree
with Python's `int` subtractions. -/
def trim_output (output : List Char) (max_lines : Nat := 30) (max_chars : Nat := 2000) :
    List Char :=
  if output.isEmpty || isspacePy output then "(no output)".toList
  else if output.length ≤ max_chars && output.count '\n' ≤ max_lines then output
  else if (containsSub "error".toList (pyLower output) ||
      containsSub "exception".toList (pyLower output)) &&
      output.length ≤ max_chars * 2 then output
  else
    let lines := splitNl output
    let total_lines := lines.length
    if total_lines ≤ max_lines then
      output.take max_chars ++ "\n\n(truncated - ".toList ++
        natToChars (output.length - max_chars) ++ " chars omitted)".toList
    else
      let keep_first := 15
      let keep_last := 10
      let omitted := total_lines - keep_first - keep_last
      let trimmed_lines :=
        if 0 < omitted then
          lines.take keep_first ++
            ["\n... (".toList ++ natToChars omitted ++ " lines omitted) ...\n".toList] ++
            lines.drop (total_lines - keep_last)
        else lines
      let result := List.intercalate "\n".toList trimmed_lines
      if max_chars < result.length then
        result.take max_chars ++ "\n\n(truncated - ".toList ++
          natToChars (result.length - max_chars) ++ " chars omitted)".toList
      else result

/-- Claim C9, counterexample: the one-character output `" "` is within both
trimming limits (1 char, 0 newlines), yet `trim_output` does not return it
unchanged - whitespace-only output is replaced by `"(no output)"`. -/
theorem c9_counterexample :
    (" ".toList.length ≤ 2000 ∧ " ".toList.count '\n' ≤ 30) ∧
    trim_output (" ".toList) 30 2000 = "(no output)".toList ∧
    trim_output (" ".toList) 30 2000 ≠ " ".toList := by
  refine ⟨by decide, by decide, by decide⟩

/-- Claim C9 (amended): for every output that is non-empty and not
whitespace-only, with at most 2000 characters and at most 30 newline
characters, `trim_output` returns it unchanged (hence re-trimming is the
identity on such output). -/
theorem c9_trim_identity (output : List Char)
    (hws : (output.isEmpty || isspacePy output) = false)
    (hchars : output.length ≤ 2000)
    (hlines : output.count '\n' ≤ 30) :
    trim_output output 30 2000 = output := by
  unfold trim_output
  rw [hws]
  have hsmall : (output.length ≤ 2000 && output.count '\n' ≤ 30) = true := by
    rw [Bool.and_eq_true, decide_eq_true_eq, decide_eq_true_eq]
    exact ⟨hchars, hlines⟩
  rw [hsmall]
  rfl

/-- Claim C9 witness: `trim_output` leaves `"hello\nworld"` unchanged, via
`c9_trim_identity`. -/
theorem c9_witness :
    (("hello\nworld".toList.isEmpty || isspacePy ("hello\nworld".toList)) = false ∧
     "hello\nworld".toList.length ≤ 2000 ∧
     "hello\nworld".toList.count '\n' ≤ 30) ∧
    trim_output ("hello\nworld".toList) 30 2000 = "hello\nworld".toList :=
  ⟨⟨by decide, by decide, by decide⟩,
    c9_trim_identity ("hello\nworld".toList) (by decide) (by decide) (by decide)⟩

/-! ### Streaming executor (`codedjinn/tools/exec_shell.py`)

The child process is abstracted as a trace: one entry of `reads` per
iteration of the polling loop in which `process.poll()` still returns
`None` (`some chunk` = data available, `none` = `BlockingIOError`), the
read performed in the iteration where `poll()` first reports the exit code,
the extra post-exit read, and the child's exit code. Each iteration sleeps
0.01 s, so a trace with `n` entries in `reads` stands for a child that ran
for at least `n / 100` seconds. -/

/-- One chunk read, `[]` when no data was available. -/
def optChunk : Option (List Char) → List Char
  | some c => c
  | none => []

/-- A child process's observable behaviour at the polling loop's interface. -/
structure ProcTrace where
  reads : List (Option (List Char))
  exitRead : Option (List Char)
  finalRead : Option (List Char)
  exitCode : Int
deriving DecidableEq, Repr

/-- The polling loop of `_execute_with_streaming`: while `poll()` returns
`None`, read whatever is available and continue; once the exit code is
seen, perform one more read and stop. There is no iteration bound and no
timeout branch. -/
def streamLoop : List (Option (List Char)) → Option (List Char) →
    Option (List Char) → Int → List Char → Int × List Char
  | [], exitRead, finalRead, code, acc =>
    (code, acc ++ optChunk exitRead ++ optChunk finalRead)
  | r :: rest, exitRead, finalRead, code, acc =>
    streamLoop rest exitRead finalRead code (acc ++ optChunk r)

/-- Model of `_execute_with_streaming`: run the polling loop on the child's trace.
(The `OSError` early-break path also ends in `process.wait()`, which
returns the same child exit code.) -/
def execute_with_streaming (t : ProcTrace) : Int × List Char :=
  streamLoop t.reads t.exitRead t.finalRead t.exitCode []

/-- Everything the child wrote, in order. -/
def capturedOutput (t : ProcTrace) : List Char :=
  (t.reads.map optChunk).flatten ++ optChunk t.exitRead ++ optChunk t.finalRead

/-- The regex-union of shell metacharacters in `is_simple_command`: the
single-character patterns, the `&&` chain, and `&\s*$` (a `&` followed only
by whitespace to the end; `2>`, `&>`, `||`, `>>` and `<<` are subsumed by
the single characters). -/
def shellMetaChars : List Char :=
  ['|', '>', '<', ';', '$', Char.ofNat 96, '(', ')', '*', '?', '[', '~']

/-- The `&\s*$` pattern: after removing trailing whitespace, the command
ends in `&`. -/
def ampAtEnd (s : List Char) : Bool :=
  match s.reverse.dropWhile isPySpace with
  | c :: _ => c = '&'
  | [] => false

/-- Model of `is_simple_command`: no shell metacharacter anywhere. -/
def is_simple_command (command : List Char) : Bool :=
  !(command.any (fun c => shellMetaChars.contains c) ||
    containsSub "&&".toList command || ampAtEnd command)

/-- Is `c` a regex word character (`\w`, ASCII fragment)? -/
def isWordChar (c : Char) : Bool :=
  c.isAlphanum || c = '_'

/-- Does the word `w` occur at the head of `s` with a word boundary after
it? -/
def wordAt (w s : List Char) : Bool :=
  List.isPrefixOf w s &&
    (match s.drop w.length with
     | [] => true
     | c :: _ => !isWordChar c)

/-- Scan `s` for an occurrence of `w` delimited by word boundaries; `prev`
is the character before the current position. -/
def wordSearch (w : List Char) : Option Char → List Char → Bool
  | prev, [] =>
    (match prev with | none => true | some c => !isWordChar c) && wordAt w []
  | prev, c :: rest =>
    ((match prev with | none => true | some p => !isWordChar p) &&
      wordAt w (c :: rest)) ||
    wordSearch w (some c) rest

/-- Regex search for `\bw\b` in `s`. -/
def wordBound (w : String) (s : List Char) : Bool :=
  wordSearch w.toList none s

/-- Model of `_is_fullscreen_tui`: the enumerated full-screen TUI program names
(`\bvim?\b` is the union of `\bvi\b` and `\bvim\b`). -/
def is_fullscreen_tui (command : List Char) : Bool :=
  wordBound "htop" command || wordBound "top" command ||
  wordBound "vi" command || wordBound "vim" command ||
  wordBound "nvim" command || wordBound "emacs" command ||
  wordBound "nano" command || wordBound "less" command ||
  wordBound "more" command

/-- The warning text returned for rejected full-screen TUI commands. -/
def tuiWarning (command : List Char) : List Char :=
  "Warning: Command '".toList ++ command ++
    "' uses a full-screen TUI program.\nFull TUI commands are not supported yet.\nPlease use text-output alternatives (e.g., 'ps aux | grep ...' instead of 'htop').".toList

/-- The environment an execution runs in: whether `shlex.split` succeeds and
the `shell=False` spawn does not raise (`parseOk`), and the child's
behaviour under each spawn mode. -/
structure ExecEnv where
  parseOk : Bool
  noShell : ProcTrace
  withShell : ProcTrace
deriving DecidableEq, Repr

/-- Model of `execute_command`: reject full-screen TUI commands with a synthetic
exit code 1; otherwise run the streaming loop, with `shell=False` for
simple commands when parsing succeeds and `shell=True` otherwise. -/
def execute_command (command : List Char) (optimize : Bool) (env : ExecEnv) :
    Int × List Char :=
  if is_fullscreen_tui command then (1, tuiWarning command)
  else if optimize && is_simple_command command && env.parseOk then
    execute_with_streaming env.noShell
  else
    execute_with_streaming env.withShell

/-! ### Dangerous-command confirmation (`codedjinn/core/policy.py`) -/

/-- Model of `DANGEROUS_PATTERNS`, in source order (the order determines which
pattern is reported in the reason string). -/
def DANGEROUS_PATTERNS : List (List Char) :=
  ["rm -rf", "rm -fr", "rm -r", "rm -f", "sudo rm", "shred",
   "dd if=", "dd of=/dev/", "mkfs", "fdisk", "parted",
   "chmod -R 777", "chmod 777 -R", "chmod -R 666", "chmod +s", "chown -R",
   "shutdown", "reboot", "halt", "poweroff", "init 0", "init 6",
   "kill -9 -1", "killall -9", "pkill -9",
   "| bash", "| sh", "| sudo bash", "| sudo sh", "|bash", "|sh",
   ":()\x7b :|:& \x7d;:", "> /dev/sda", "> /dev/nvme",
   "> /etc/passwd", "> /etc/shadow", "> /etc/sudoers", "echo > /etc/",
   "DROP DATABASE", "DROP TABLE", "TRUNCATE TABLE", "DELETE FROM",
   "git push --force", "git push -f", "git reset --hard HEAD~", "git clean -fdx",
   "docker rm -f", "docker system prune -a", "docker volume rm", "kubectl delete",
   "apt-get purge", "apt-get remove", "yum remove", "brew uninstall",
   "pip uninstall", "npm uninstall -g",
   "crontab -r", "systemctl stop", "systemctl disable", "service stop",
   "tar -czf / ", "zip -r / ",
   "iptables -F", "ufw disable", "firewall-cmd --remove"].map String.toList

/-- Model of `CRITICAL_PATHS`, checked case-sensitively against the raw command. -/
def CRITICAL_PATHS : List (List Char) :=
  ["/etc/", "/boot/", "/sys/", "/proc/", "/dev/sd", "/dev/nvme",
   "/usr/bin/", "/usr/sbin/", "~/.ssh/", "~/.bashrc", "~/.zshrc",
   "~/.bash_profile"].map String.toList

/-- Model of `YES_RESPONSES`. -/
def YES_RESPONSES : List (List Char) :=
  ["yes", "YES", "Yes", "Y", "y"].map String.toList

/-- Model of `NO_RESPONSES`. -/
def NO_RESPONSES : List (List Char) :=
  ["no", "NO", "No", "N", "n"].map String.toList

/-- Model of `is_dangerous`: first matching dangerous pattern (lowercased, substring
of the lowercased command), then first matching critical path (raw); the
second component is the reason string. -/
def is_dangerous (command : List Char) : Bool × List Char :=
  match DANGEROUS_PATTERNS.find? (fun p => containsSub (pyLower p) (pyLower command)) with
  | some p => (true, "Destructive operation: '".toList ++ p ++ "' detected".toList)
  | none =>
    match CRITICAL_PATHS.find? (fun p => containsSub p command) with
    | some p => (true, "Critical path operation: '".toList ++ p ++ "' detected".toList)
    | none => (false, [])

/-- Model of `prompt_user_confirmation`, abstracted over the user's response: `none`
models `EOFError`/`KeyboardInterrupt` (→ aborted); a response is stripped
and accepted only when it is one of `YES_RESPONSES`; `NO_RESPONSES` and any
invalid input both cancel. -/
def prompt_user_confirmation (response : Option (List Char)) : Bool :=
  match response with
  | none => false
  | some r => YES_RESPONSES.contains (pyStrip r)

/-- Model of `check_and_confirm`: safe commands proceed without prompting; dangerous
ones require the user's confirmation. -/
def check_and_confirm (command : List Char) (response : Option (List Char)) : Bool :=
  if (is_dangerous command).fst = false then true
  else prompt_user_confirmation response

/-! ### The `run` command flow after generation (`codedjinn/ui/cli.py`) -/

/-- Outcome of one `run` invocation after the command has been generated:
`cancelled code` models `typer.Exit(code)` raised before execution (the
command is never executed), `finished code output` models execution
followed by `typer.Exit(exit_code)` with the executor's result. -/
inductive RunOutcome
  | cancelled (code : Int)
  | finished (code : Int) (output : List Char)
deriving DecidableEq, Repr

/-- The `run` command from the generated command onward: unless
`--no-confirm` was given, a failed `check_and_confirm` exits with code 1;
otherwise the command is executed (with `optimize = True`, as
`execute_command(command, cwd=cwd)` defaults) and the process exits with
the executor's exit code. -/
def cli_run (command : List Char) (no_confirm : Bool)
    (response : Option (List Char)) (env : ExecEnv) : RunOutcome :=
  if !no_confirm && !(check_and_confirm command response) then .cancelled 1
  else
    .finished (execute_command command true env).fst
      (execute_command command true env).snd

/-- The trace of the child that actually runs for a non-TUI command under
`execute_command` with `optimize = True`. -/
def chosenTrace (command : List Char) (env : ExecEnv) : ProcTrace :=
  if is_simple_command command && env.parseOk then env.noShell else env.withShell

/-! ### Executor and CLI lemmas and claims C3, C4, C6 -/

theorem streamLoop_eq (reads : List (Option (List Char))) :
    ∀ (er fr : Option (List Char)) (code : Int) (acc : List Char),
      streamLoop reads er fr code acc =
        (code, acc ++ (reads.map optChunk).flatten ++ optChunk er ++ optChunk fr) := by
  induction reads with
  | nil =>
    intro er fr code acc
    simp [streamLoop]
  | cons r rest ih =>
    intro er fr code acc
    show streamLoop rest er fr code (acc ++ optChunk r) = _
    rw [ih]
    simp [List.append_assoc]

theorem execute_with_streaming_eq (t : ProcTrace) :
    execute_with_streaming t = (t.exitCode, capturedOutput t) := by
  unfold execute_with_streaming capturedOutput
  rw [streamLoop_eq]
  rfl

/-- Full characterization of `execute_command` on non-TUI commands: the
result is always the chosen child's exit code and captured output; the
definition contains no timeout branch. -/
theorem execute_command_spec (command : List Char) (optimize : Bool) (env : ExecEnv)
    (htui : is_fullscreen_tui command = false) :
    execute_command command optimize env =
      ((if optimize && is_simple_command command && env.parseOk then env.noShell
        else env.withShell).exitCode,
       capturedOutput
        (if optimize && is_simple_command command && env.parseOk then env.noShell
         else env.withShell)) := by
  unfold execute_command
  rw [htui]
  simp only [Bool.false_eq_true, if_false]
  by_cases hopt : (optimize && is_simple_command command && env.parseOk) = true
  · rw [if_pos hopt, if_pos hopt]
    exact execute_with_streaming_eq env.noShell
  · rw [if_neg hopt, if_neg hopt]
    exact execute_with_streaming_eq env.withShell

theorem flatten_replicate_nil (n : Nat) :
    (List.replicate n ([] : List Char)).flatten = [] := by
  induction n with
  | zero => rfl
  | succ k ih => simp [List.replicate_succ, ih]

/-- A child that stays alive for 4000 polling iterations (each iteration
sleeps 0.01 s, so this stands for a run of at least 40 s, beyond the
claimed 30 s ceiling) and then exits with code 0 having written nothing. -/
def longSleepTrace : ProcTrace :=
  ⟨List.replicate 4000 none, none, none, 0⟩

/-- Environment for the C3 counterexample. -/
def c3Env : ExecEnv :=
  ⟨true, longSleepTrace, longSleepTrace⟩

/-- Claim C3, counterexample: a `sleep 60` child that runs for 4000 polling
iterations (at least 40 s, past the claimed 30 s default ceiling) is not
aborted: `execute_command` waits it out and returns exit code 0 - there is
no timed-out outcome in the streaming executor. -/
theorem c3_counterexample :
    3000 < longSleepTrace.reads.length ∧
    execute_command ("sleep 60".toList) true c3Env = (0, []) := by
  constructor
  · show 3000 < (List.replicate 4000 (none : Option (List Char))).length
    rw [List.length_replicate]
    omega
  · rw [execute_command_spec ("sleep 60".toList) true c3Env (by decide)]
    have hc : (true && is_simple_command ("sleep 60".toList) && c3Env.parseOk) = true := by
      decide
    rw [if_pos hc]
    show (longSleepTrace.exitCode, capturedOutput longSleepTrace) = (0, [])
    unfold capturedOutput longSleepTrace
    rw [List.map_replicate]
    rw [show optChunk (none : Option (List Char)) = [] from rfl]
    rw [flatten_replicate_nil]
    rfl

/-- Claim C3 (amended): the streaming executor (`exec_shell.execute_command`
/ `_execute_with_streaming`, the path used by `run`) enforces no time
ceiling at all: for every non-TUI command and every child trace - however
many polling iterations it takes - it returns the child's real exit code
and captured output, and no timed-out outcome exists. (A 30 s subprocess
timeout with a distinct timed-out report exists only in the legacy
`RunMode._execute_command` and `CommandExecutor` chat-mode paths.) -/
theorem c3_no_timeout_ceiling (command : List Char) (optimize : Bool) (env : ExecEnv)
    (htui : is_fullscreen_tui command = false) :
    execute_command command optimize env =
      ((if optimize && is_simple_command command && env.parseOk then env.noShell
        else env.withShell).exitCode,
       capturedOutput
        (if optimize && is_simple_command command && env.parseOk then env.noShell
         else env.withShell)) :=
  execute_command_spec command optimize env htui

/-- Environment for the C3 witness: a short-lived child under each mode. -/
def c3WitnessEnv : ExecEnv :=
  ⟨true, ⟨[some ("ok".toList)], none, none, 3⟩, ⟨[], none, none, 5⟩⟩

/-- Claim C3 witness: `c3_no_timeout_ceiling` applied to `"sleep 60"`,
returning the child's exit code 3 and its output. -/
theorem c3_witness :
    is_fullscreen_tui ("sleep 60".toList) = false ∧
    execute_command ("sleep 60".toList) true c3WitnessEnv = (3, "ok".toList) :=
  ⟨by decide, by
    rw [c3_no_timeout_ceiling ("sleep 60".toList) true c3WitnessEnv (by decide)]
    decide⟩

/-- Claim C4: whenever a `run` invocation reaches the EXECUTE phase (the
confirmation gate passes and the command is not a rejected TUI program),
the CLI process's own exit code is the executed child's real exit code. -/
theorem c4_exit_code_propagation (command : List Char) (response : Option (List Char))
    (no_confirm : Bool) (env : ExecEnv)
    (hconf : no_confirm = true ∨ check_and_confirm command response = true)
    (htui : is_fullscreen_tui command = false) :
    cli_run command no_confirm response env =
      RunOutcome.finished (chosenTrace command env).exitCode
        (capturedOutput (chosenTrace command env)) := by
  unfold cli_run
  have hcond : (!no_confirm && !(check_and_confirm command response)) = false := by
    rcases hconf with h | h <;> simp [h]
  rw [hcond]
  simp only [Bool.false_eq_true, if_false]
  rw [execute_command_spec command true env htui]
  unfold chosenTrace
  rw [Bool.true_and]

/-- Environment for the C4 witness: the shell-mode child exits with code 7
(the `execute("exit 7")` example; `shlex`-mode spawn fails for the shell
builtin, modelled by `parseOk = false`). -/
def c4Env : ExecEnv :=
  ⟨false, ⟨[], none, none, 0⟩, ⟨[], none, none, 7⟩⟩

/-- Claim C4 witness: running `exit 7` makes the invocation exit with code
7 and empty output, via `c4_exit_code_propagation`. -/
theorem c4_witness :
    check_and_confirm ("exit 7".toList) none = true ∧
    is_fullscreen_tui ("exit 7".toList) = false ∧
    cli_run ("exit 7".toList) false none c4Env = RunOutcome.finished 7 [] :=
  ⟨by decide, by decide, by
    rw [c4_exit_code_propagation ("exit 7".toList) none false c4Env
      (Or.inr (by decide)) (by decide)]
    decide⟩

/-- A trivial environment (never consulted when the run is cancelled). -/
def dummyEnv : ExecEnv :=
  ⟨true, ⟨[], none, none, 0⟩, ⟨[], none, none, 0⟩⟩

/-- Claim C6, counterexample: declining the confirmation of the dangerous
command `sudo rm -rf /var/log` terminates the invocation with exit code 1 -
the generic failure code, not the reserved interruption code 130. -/
theorem c6_counterexample :
    cli_run ("sudo rm -rf /var/log".toList) false (some ("no".toList)) dummyEnv =
      RunOutcome.cancelled 1 ∧
    RunOutcome.cancelled (1 : Int) ≠ RunOutcome.cancelled 130 := by
  refine ⟨by decide, by decide⟩

/-- Claim C6 (amended): whenever the user declines the confirmation of a
dangerous command - or interrupts during the prompt (`response = none`) -
the `run` invocation terminates with exit code 1 (the same generic failure
code used for generation errors, not a distinct 130) and the command is
never executed (the outcome is `cancelled`, produced before the executor
is invoked). -/
theorem c6_cancel_exit_code (command : List Char) (response : Option (List Char))
    (env : ExecEnv)
    (hdanger : (is_dangerous command).fst = true)
    (hdecline : prompt_user_confirmation response = false) :
    cli_run command false response env = RunOutcome.cancelled 1 := by
  unfold cli_run
  have hcc : check_and_confirm command response = false := by
    unfold check_and_confirm
    rw [hdanger, hdecline]
    simp
  rw [hcc]
  simp

/-- Claim C6 witness: declining `rm -rf /tmp/build` with `"n"`, and
interrupting (EOF/Ctrl-C) the same prompt, both yield exit code 1 via
`c6_cancel_exit_code`. -/
theorem c6_witness :
    ((is_dangerous ("rm -rf /tmp/build".toList)).fst = true ∧
     cli_run ("rm -rf /tmp/build".toList) false (some ("n".toList)) dummyEnv =
       RunOutcome.cancelled 1) ∧
    cli_run ("rm -rf /tmp/build".toList) false none dummyEnv =
      RunOutcome.cancelled 1 :=
  ⟨⟨by decide,
    c6_cancel_exit_code ("rm -rf /tmp/build".toList) (some ("n".toList)) dummyEnv
      (by decide) (by decide)⟩,
   c6_cancel_exit_code ("rm -rf /tmp/build".toList) none dummyEnv
     (by decide) (by decide)⟩

end CodeDjinn
